import Mathlib

/-!
Shallow embedding of the adcontextprotocol/registry property-discovery engine:
the `PropertyIndex` (bidirectional agent/property mapping), the
`AgentValidator` (publisher-manifest authorization check), the
`PublisherTracker` (schema/coverage reconciliation) and the `CrawlerService`
single-flight sweep guard, together with theorems settling the spec claims.

JavaScript `Map` objects are modelled as insertion-ordered association lists;
`Date` timestamps as natural-number milliseconds; network fetches as explicit
outcome values passed to the function under analysis.  Number arithmetic
(`Math.round` of non-negative ratios) is modelled exactly over `Nat`.
-/

namespace Registry

/-! ### Association-list model of JS `Map` -/

/-- Models `map.get(k)`: first binding of `k`, if any. -/
def lookupAssoc {α : Type} (m : List (String × α)) (k : String) : Option α :=
  match m with
  | [] => none
  | (k', v) :: rest => if k' = k then some v else lookupAssoc rest k

/-- Models `map.set(k, v)`: replace in place, or append a new binding. -/
def setAssoc {α : Type} (m : List (String × α)) (k : String) (v : α) :
    List (String × α) :=
  match m with
  | [] => [(k, v)]
  | (k', v') :: rest => if k' = k then (k, v) :: rest else (k', v') :: setAssoc rest k v

/-- Models `map.get(k)` for list/set-valued maps, defaulting the miss to `[]`
(the `|| []` / fresh-`Set` idiom of the source). -/
def getList {α : Type} (m : List (String × List α)) (k : String) : List α :=
  (lookupAssoc m k).getD []

theorem lookupAssoc_setAssoc_self {α : Type} (m : List (String × α)) (k : String) (v : α) :
    lookupAssoc (setAssoc m k v) k = some v := by
  induction m with
  | nil => simp [setAssoc, lookupAssoc]
  | cons hd tl ih =>
      obtain ⟨k', v'⟩ := hd
      by_cases h : k' = k
      · simp [setAssoc, lookupAssoc, h]
      · simp [setAssoc, lookupAssoc, h, ih]

theorem lookupAssoc_setAssoc_ne {α : Type} (m : List (String × α)) (k k' : String) (v : α)
    (h : k' ≠ k) : lookupAssoc (setAssoc m k v) k' = lookupAssoc m k' := by
  have hkk : ¬ k = k' := fun hh => h hh.symm
  induction m with
  | nil => simp [setAssoc, lookupAssoc, hkk]
  | cons hd tl ih =>
      obtain ⟨k₀, v₀⟩ := hd
      by_cases h0 : k₀ = k
      · subst h0
        simp [setAssoc, lookupAssoc, hkk]
      · simp [setAssoc, lookupAssoc, h0, ih]

theorem getList_setAssoc_self {α : Type} (m : List (String × List α)) (k : String)
    (v : List α) : getList (setAssoc m k v) k = v := by
  simp [getList, lookupAssoc_setAssoc_self]

theorem getList_setAssoc_ne {α : Type} (m : List (String × List α)) (k k' : String)
    (v : List α) (h : k' ≠ k) : getList (setAssoc m k v) k' = getList m k' := by
  simp [getList, lookupAssoc_setAssoc_ne m k k' v h]

/-! ### Property Index (src/unnamed/part_008, `PropertyIndex`) -/

/-- A property identifier `{type, value}`. -/
structure Identifier where
  type : String
  value : String
deriving DecidableEq, Repr

/-- A claimed property, per the `PropertyMatch`/`AgentAuthorization` shape. -/
structure Property where
  property_type : String
  name : String
  identifiers : List Identifier
  tags : List String
  publisher_domain : String
deriving DecidableEq, Repr

/-- An entry returned by `findAgentsForProperty`. -/
structure PropertyMatch where
  property : Property
  agent_url : String
  publisher_domain : String
deriving DecidableEq, Repr

/-- The bidirectional index: `agentProperties` (forward map, agent URL to
claimed properties) and `propertyToAgents` (reverse map, identifier key to
agent URLs). -/
structure PropertyIndex where
  agentProperties : List (String × List Property)
  propertyToAgents : List (String × List String)
deriving DecidableEq, Repr

/-- The freshly constructed (or `clear()`-ed) index: both maps empty. -/
def PropertyIndex.empty : PropertyIndex := ⟨[], []⟩

/-- Reverse-index key of an identifier: the template string
`identifier.type ++ ":" ++ identifier.value`. -/
def identKey (i : Identifier) : String := i.type ++ ":" ++ i.value

/-- Models `propertyToAgents.get(key).add(url)` with the create-if-absent idiom:
a JS `Set` is an insertion-ordered duplicate-free list. -/
def addToSetAssoc (m : List (String × List String)) (k : String) (u : String) :
    List (String × List String) :=
  let s := getList m k
  setAssoc m k (if u ∈ s then s else s ++ [u])

/-- The reverse-index building loop of `addAgentProperties`: for each property,
for each identifier, add the agent URL under that identifier's key. -/
def addPropsToReverse (m : List (String × List String)) (agentUrl : String)
    (properties : List Property) : List (String × List String) :=
  properties.foldl
    (fun m prop =>
      prop.identifiers.foldl (fun m id => addToSetAssoc m (identKey id) agentUrl) m) m

/-- Models `PropertyIndex.addAgentProperties(agentUrl, properties)`: replace the
forward-map entry wholesale, then add reverse entries for every identifier of
the new set.  (Note: the source adds but never removes reverse entries.) -/
def PropertyIndex.addAgentProperties (idx : PropertyIndex) (agentUrl : String)
    (properties : List Property) : PropertyIndex :=
  { agentProperties := setAssoc idx.agentProperties agentUrl properties
    propertyToAgents := addPropsToReverse idx.propertyToAgents agentUrl properties }

/-- Models `PropertyIndex.findAgentsForProperty(propertyType, propertyValue)`:
look up the reverse set for the key, then for each agent URL scan its current
claim set and emit matches whose property actually carries the identifier. -/
def PropertyIndex.findAgentsForProperty (idx : PropertyIndex)
    (propertyType propertyValue : String) : List PropertyMatch :=
  let key := propertyType ++ ":" ++ propertyValue
  (getList idx.propertyToAgents key).flatMap (fun agentUrl =>
    ((getList idx.agentProperties agentUrl).filter
      (fun p => p.identifiers.any
        (fun id => id.type == propertyType && id.value == propertyValue))).map
      (fun p =>
        { property := p, agent_url := agentUrl, publisher_domain := p.publisher_domain }))

/-- The mutations the source ever applies to the singleton index. -/
inductive IndexOp where
  | add (agentUrl : String) (properties : List Property)
  | clear
deriving Repr

def PropertyIndex.applyOp (idx : PropertyIndex) : IndexOp → PropertyIndex
  | .add a ps => idx.addAgentProperties a ps
  | .clear => PropertyIndex.empty

/-- A reachable index state: the result of a sequence of operations starting
from the freshly constructed index. -/
def runOps (ops : List IndexOp) : PropertyIndex :=
  ops.foldl PropertyIndex.applyOp PropertyIndex.empty

/-- The inner identifier loop of `addAgentProperties`. -/
def addIdsToReverse (m : List (String × List String)) (agentUrl : String)
    (ids : List Identifier) : List (String × List String) :=
  ids.foldl (fun m id => addToSetAssoc m (identKey id) agentUrl) m

/-- A sample claimed property carrying identifier `{domain, a.com}`. -/
def sampleProp : Property :=
  { property_type := "website", name := "Site A"
    identifiers := [{ type := "domain", value := "a.com" }]
    tags := [], publisher_domain := "a.com" }

/-! ### Authorization Validator (src/server/src/index.ts, `AgentValidator`)

String tests and slices are modelled over the character list of the string
(`String.data`), which matches the JS semantics on these ASCII inputs and
keeps every definition evaluable by the kernel. -/

/-- Does the second list start with the first? -/
def charsStartWith : List Char → List Char → Bool
  | [], _ => true
  | _ :: _, [] => false
  | p :: ps, s :: ss => p == s && charsStartWith ps ss

/-- Does the second list contain the first as a contiguous run? -/
def charsContain (pat : List Char) : List Char → Bool
  | [] => charsStartWith pat []
  | s :: ss => charsStartWith pat (s :: ss) || charsContain pat ss

/-- Models `s.startsWith(p)`. -/
def strStartsWith (s p : String) : Bool := charsStartWith p.toList s.toList

/-- Models `s.endsWith(p)`. -/
def strEndsWith (s p : String) : Bool := charsStartWith p.toList.reverse s.toList.reverse

/-- Models `s.includes(pat)`. -/
def strIncludes (s pat : String) : Bool := charsContain pat.toList s.toList

/-- Models `s.slice(n)`: drop the first `n` characters. -/
def strDrop (s : String) (n : Nat) : String := String.mk (s.toList.drop n)

/-- Models `s.slice(0, -n)`: drop the last `n` characters. -/
def strDropRight (s : String) (n : Nat) : String :=
  String.mk (s.toList.take (s.toList.length - n))

/-- Models `s.toLowerCase()`. -/
def strToLower (s : String) : String := String.mk (s.toList.map Char.toLower)

/-- Models `s.replace(/\/$/, "")`: drop one trailing slash. -/
def stripTrailingSlash (s : String) : String :=
  if strEndsWith s "/" then strDropRight s 1 else s

/-- Models `domain.replace(/^https?:\/\//, "").replace(/\/$/, "")`. -/
def normalizeDomain (d : String) : String :=
  let noScheme :=
    if strStartsWith d "http://" then strDrop d 7
    else if strStartsWith d "https://" then strDrop d 8
    else d
  if strEndsWith noScheme "/" then strDropRight noScheme 1 else noScheme

/-- The template string the validator fetches. -/
def adagentsUrl (d : String) : String :=
  "https://" ++ normalizeDomain d ++ "/.well-known/adagents.json"

/-- One element of a manifest's `authorized_agents` array: either a
(deprecated) bare URL string or an object whose `url` field may be absent. -/
inductive AuthEntry where
  | str (s : String)
  | obj (url : Option String)
deriving DecidableEq, Repr

/-- The runtime value of the `authorized_agents` field; `absent` covers a
missing or otherwise falsy field. -/
inductive AAValue where
  | absent
  | notArray
  | arr (entries : List AuthEntry)
deriving DecidableEq, Repr

/-- The runtime value of the `properties` field; only presence and array-ness
are inspected by the code. -/
inductive PropsValue where
  | absent
  | notArray
  | arr
deriving DecidableEq, Repr

/-- A parsed manifest document (`adagents.json`). -/
structure Manifest where
  schemaPresent : Bool
  authorized_agents : AAValue
  propertiesField : PropsValue
  lastUpdatedPresent : Bool
  domainField : Option String
deriving DecidableEq, Repr

/-- A thrown JS value as observed by a `catch` block;
`isError` models `error instanceof Error`. -/
structure JsError where
  isError : Bool
  name : String
  message : String
deriving DecidableEq, Repr

/-- Outcome of reading the response body with `response.json()`. -/
inductive BodyOutcome where
  | jsonError (e : JsError)
  | parsed (data : Manifest)
deriving DecidableEq, Repr

/-- Outcome of the `fetch` call, supplied explicitly to the function under
analysis; `contentType` is `response.headers.get("content-type")`. -/
inductive FetchOutcome where
  | thrown (e : JsError)
  | resp (status : Nat) (contentType : Option String) (body : BodyOutcome)
deriving DecidableEq, Repr

/-- The error-message classification in `fetchAndValidate`'s catch block. -/
def classifyCatch (e : JsError) : String :=
  if e.isError then
    if strIncludes e.message "Unexpected token" then "File does not exist or is not valid JSON"
    else if e.name = "AbortError" then "Request timed out"
    else e.message
  else "Unknown error"

/-- The result record of one validation. -/
structure ValidationResult where
  authorized : Bool
  domain : String
  agent_url : String
  checked_at : Nat
  source : Option String
  error : Option String
deriving DecidableEq, Repr

/-- Models `data.authorized_agents.some(agent => agent.url.replace(/\/$/, "") ===
normalizedAgentUrl)`: entries are evaluated left to right, and an entry whose
`url` is not a string makes `agent.url.replace` throw (caught by the
surrounding catch block). -/
def someAuthorized (entries : List AuthEntry) (normalizedAgentUrl : String) :
    Except JsError Bool :=
  match entries with
  | [] => .ok false
  | .str _ :: _ =>
      .error ⟨true, "TypeError", "Cannot read properties of undefined (reading \x27replace\x27)"⟩
  | .obj none :: _ =>
      .error ⟨true, "TypeError", "Cannot read properties of undefined (reading \x27replace\x27)"⟩
  | .obj (some u) :: rest =>
      if stripTrailingSlash u = normalizedAgentUrl then .ok true
      else someAuthorized rest normalizedAgentUrl

/-- Models `AgentValidator.fetchAndValidate(domain, agentUrl)` with the network
outcome passed explicitly and `Date.now()` as `now`. -/
def fetchAndValidate (domain agentUrl : String) (now : Nat) (outcome : FetchOutcome) :
    ValidationResult :=
  let nd := normalizeDomain domain
  let caught : JsError → ValidationResult := fun e =>
    { authorized := false, domain := nd, agent_url := agentUrl, checked_at := now
      source := none, error := some (classifyCatch e) }
  match outcome with
  | .thrown e => caught e
  | .resp status contentType body =>
      if 200 ≤ status ∧ status ≤ 299 then
        let ct := contentType.getD ""
        if strIncludes ct "application/json" then
          match body with
          | .jsonError e => caught e
          | .parsed data =>
              match data.authorized_agents with
              | .arr entries =>
                  match someAuthorized entries (stripTrailingSlash agentUrl) with
                  | .ok b =>
                      { authorized := b, domain := nd, agent_url := agentUrl
                        checked_at := now, source := some (adagentsUrl domain)
                        error := none }
                  | .error e => caught e
              | _ =>
                  { authorized := false, domain := nd, agent_url := agentUrl
                    checked_at := now, source := none
                    error := some "Invalid adagents.json format: missing authorized_agents array" }
        else
          { authorized := false, domain := nd, agent_url := agentUrl
            checked_at := now, source := none
            error := some ("File does not exist or returns " ++ ct ++ " instead of JSON") }
      else
        { authorized := false, domain := nd, agent_url := agentUrl
          checked_at := now, source := none
          error := some ("HTTP " ++ toString status) }

/-- An entry of the generic expiring `Cache` (src/server/src/cache.ts). -/
structure CacheEntry where
  expiresAt : Nat
  value : ValidationResult
deriving DecidableEq, Repr

/-- The validator's cache: entries plus the configured TTL in milliseconds
(15 minutes by default). -/
structure ValidatorState where
  cache : List (String × CacheEntry)
  ttlMs : Nat
deriving DecidableEq, Repr

/-- Models `map.delete(k)`. -/
def removeAssoc {α : Type} (m : List (String × α)) (k : String) : List (String × α) :=
  match m with
  | [] => []
  | (k', v) :: rest => if k' = k then rest else (k', v) :: removeAssoc rest k

/-- Models `Cache.get(key)`: a present entry past its expiry is evicted and reported
as a miss; expiry is checked lazily on read. -/
def cacheGet (st : ValidatorState) (now : Nat) (k : String) :
    Option ValidationResult × ValidatorState :=
  match lookupAssoc st.cache k with
  | none => (none, st)
  | some e =>
      if now > e.expiresAt then (none, { st with cache := removeAssoc st.cache k })
      else (some e.value, st)

/-- Models `Cache.set(key, value)`: absolute expiry `now + ttl`. -/
def cacheSet (st : ValidatorState) (now : Nat) (k : String) (v : ValidationResult) :
    ValidatorState :=
  { st with cache := setAssoc st.cache k ⟨now + st.ttlMs, v⟩ }

/-- Models `AgentValidator.validate(domain, agentUrl)`: consult the cache under key
`domain ++ ":" ++ agentUrl` before any network call; on a miss run
`fetchAndValidate` and cache its result. -/
def validate (st : ValidatorState) (now : Nat) (domain agentUrl : String)
    (outcome : FetchOutcome) : ValidationResult × ValidatorState :=
  let key := domain ++ ":" ++ agentUrl
  match cacheGet st now key with
  | (some r, st') => (r, st')
  | (none, st') =>
      let r := fetchAndValidate domain agentUrl now outcome
      (r, cacheSet st' now key r)

/-- The normalization asserted by claim C4: strip scheme, strip a trailing
slash, and lower-case. -/
def claimedNormalizeDomain (d : String) : String :=
  strToLower (stripTrailingSlash (if strStartsWith d "http://" then strDrop d 7
    else if strStartsWith d "https://" then strDrop d 8 else d))

/-- Amended normalization: strip one leading `http://` or `https://` scheme,
then one trailing slash; the case of the domain is preserved. -/
def amendedNormalizeDomain (d : String) : String :=
  stripTrailingSlash (if strStartsWith d "http://" then strDrop d 7
    else if strStartsWith d "https://" then strDrop d 8 else d)

/-- The example manifest whose `authorized_agents` array holds the single
object entry with url `https://sales.example.com`. -/
def nytManifest : Manifest :=
  { schemaPresent := false
    authorized_agents := .arr [.obj (some "https://sales.example.com")]
    propertiesField := .absent
    lastUpdatedPresent := false
    domainField := none }

/-! ### Publisher Tracker (src/unnamed/part_001, `PublisherTracker`) -/

inductive Severity where
  | error
  | warning
deriving DecidableEq, Repr

structure PublisherIssue where
  severity : Severity
  message : String
  fix : String
deriving DecidableEq, Repr

inductive DeploymentStatus where
  | deployed
  | schema_outdated
  | missing
  | error
deriving DecidableEq, Repr

/-- The `PublisherStatus` record; `last_checked` is the `Date.now()` value
whose ISO rendering the source stores (the round trip preserves it). -/
structure PublisherStatus where
  domain : String
  deployment_status : DeploymentStatus
  adagents_file_url : String
  last_checked : Nat
  issues : List PublisherIssue
  authorized_agents : List (Option String)
  expected_agents : List String
  coverage_percentage : Nat
  raw_content : Option Manifest
deriving DecidableEq, Repr

/-- Models `agent.url` truthiness for an object entry: present and non-empty. -/
def urlTruthy : Option String → Bool
  | none => false
  | some s => s != ""

/-- The entry loop of `validateSchema`: a string entry sets the old-schema
flag, records its warning and breaks; an object entry without a truthy `url`
records an error, clears validity and continues.  Returns
(validity of the scanned entries, old-schema flag, issues in entry order). -/
def checkEntries : List AuthEntry → Bool × Bool × List PublisherIssue
  | [] => (true, false, [])
  | .str _ :: _ =>
      (true, true,
        [{ severity := .warning
           message := "Using old string format for authorized_agents"
           fix := "Update to object format: \x7b\"url\": \"https://....\", \"authorized_for\": \"Description\"\x7d" }])
  | .obj u :: rest =>
      if urlTruthy u then checkEntries rest
      else
        let r := checkEntries rest
        (false, r.2.1,
          { severity := .error
            message := "Agent missing required \x27url\x27 field"
            fix := "Each agent must have: \x7b\"url\": \"https://agent.example.com\", \"authorized_for\": \"Description\"\x7d" } :: r.2.2)

/-- Models `PublisherTracker.validateSchema(content)`: returns
(isValid, hasOldSchema, issues). -/
def validateSchema (content : Manifest) : Bool × Bool × List PublisherIssue :=
  let schemaIssues : List PublisherIssue :=
    if content.schemaPresent then []
    else
      [{ severity := .warning, message := "Missing $schema field"
         fix := "Add \"$schema\": \"https://adcontextprotocol.org/schemas/v1/adagents.json\"" }]
  let aaRes : Bool × Bool × List PublisherIssue :=
    match content.authorized_agents with
    | .arr entries => checkEntries entries
    | _ =>
        (false, false,
          [{ severity := .error, message := "Missing or invalid authorized_agents array"
             fix := "Add \"authorized_agents\": [\x7b\"url\": \"https://agent.example.com\", \"authorized_for\": \"Description\"\x7d]" }])
  let propsRes : Bool × Bool × List PublisherIssue :=
    match content.propertiesField with
    | .absent =>
        (true, true,
          [{ severity := .warning
             message := "Missing \x27properties\x27 array (new AdCP v2 protocol)"
             fix := "Add \"properties\": [\x7b\"type\": \"domain\", \"identifier\": \""
               ++ content.domainField.getD "example.com"
               ++ "\", \"tags\": [\"tag1\"], \"publisher_domains\": [\""
               ++ content.domainField.getD "example.com" ++ "\"]\x7d]" }])
    | .notArray =>
        (false, false,
          [{ severity := .error, message := "\x27properties\x27 must be an array"
             fix := "Change properties to an array: \"properties\": [...]" }])
    | .arr => (true, false, [])
  let luIssues : List PublisherIssue :=
    if content.lastUpdatedPresent then []
    else
      [{ severity := .warning, message := "Missing \x27last_updated\x27 field"
         fix := "Add \"last_updated\": \"2025-01-22T12:00:00Z\" with current ISO 8601 timestamp" }]
  let isValid := aaRes.1 && propsRes.1
  let hasOldSchema := aaRes.2.1 || propsRes.2.1
  (isValid && !hasOldSchema, hasOldSchema,
    schemaIssues ++ aaRes.2.2 ++ propsRes.2.2 ++ luIssues)

/-- Models `content.authorized_agents.map(a => a.url || a)`: a bare string maps to
itself; an object maps to its `url` when that is truthy, otherwise to the
object itself, which equals no expected-agent string (`none` here). -/
def extractUrl : AuthEntry → Option String
  | .str s => some s
  | .obj (some u) => if u = "" then none else some u
  | .obj none => none

/-- The extracted `authorized_agents` list of a parsed manifest (empty when
the field is absent). -/
def extractedAgents (m : Manifest) : List (Option String) :=
  match m.authorized_agents with
  | .arr entries => entries.map extractUrl
  | _ => []

/-- Models `Math.round((matchCount / total) * 100)` for a non-negative ratio:
exact round-half-up, `floor(100 * matchCount / total + 1/2)`. -/
def roundPct (matchCount total : Nat) : Nat :=
  (200 * matchCount + total) / (2 * total)

/-- The issue the tracker's catch block records. -/
def fetchFailIssue (msg : String) : PublisherIssue :=
  { severity := .error, message := "Failed to fetch: " ++ msg
    fix := "Ensure the file is accessible over HTTPS and CORS is enabled" }

/-- The warning listing expected agents absent from the manifest. -/
def missingAgentsIssue (missing : List String) : PublisherIssue :=
  { severity := .warning
    message := "Missing " ++ toString missing.length ++ " expected agent(s): "
      ++ String.intercalate ", " missing
    fix := "Add these agents to the authorized_agents array if they should represent this publisher" }

/-- The body of `checkPublisher` after a cache miss (or stale entry): fetch,
classify, validate, extract, score, cache, return.  A parsed manifest whose
`authorized_agents` is truthy but not an array makes the `.map` call throw,
landing in the catch block after the validation issues were already pushed. -/
def checkPublisherFresh (cache : List (String × PublisherStatus)) (now : Nat)
    (domain : String) (expectedAgents : List String) (outcome : FetchOutcome) :
    PublisherStatus × List (String × PublisherStatus) :=
  let url := "https://" ++ domain ++ "/.well-known/adagents.json"
  let base : PublisherStatus :=
    { domain := domain, deployment_status := .missing, adagents_file_url := url
      last_checked := now, issues := [], authorized_agents := []
      expected_agents := expectedAgents, coverage_percentage := 0, raw_content := none }
  let finish : PublisherStatus → PublisherStatus × List (String × PublisherStatus) :=
    fun st => (st, setAssoc cache domain st)
  match outcome with
  | .thrown e =>
      finish { base with
        deployment_status := .error
        issues := [fetchFailIssue e.message] }
  | .resp status contentType body =>
      if 200 ≤ status ∧ status ≤ 299 then
        if (match contentType with
            | some ct => strIncludes ct "application/json"
            | none => false) = true then
          match body with
          | .jsonError e =>
              finish { base with
                deployment_status := .error
                issues := [fetchFailIssue e.message] }
          | .parsed content =>
              let v := validateSchema content
              let ds : DeploymentStatus :=
                if v.1 then .deployed else if v.2.1 then .schema_outdated else .error
              match content.authorized_agents with
              | .notArray =>
                  finish { base with
                    raw_content := some content
                    deployment_status := .error
                    issues := v.2.2
                      ++ [fetchFailIssue "content.authorized_agents.map is not a function"] }
              | _ =>
                  let extracted := extractedAgents content
                  let matchCount :=
                    (expectedAgents.filter (fun e => extracted.contains (some e))).length
                  let cov :=
                    if expectedAgents.length > 0 then roundPct matchCount expectedAgents.length
                    else 0
                  let missing :=
                    expectedAgents.filter (fun e => !(extracted.contains (some e)))
                  let missIssues :=
                    if missing.length > 0 then [missingAgentsIssue missing] else []
                  finish { base with
                    raw_content := some content
                    deployment_status := ds
                    issues := v.2.2 ++ missIssues
                    authorized_agents := extracted
                    coverage_percentage := cov }
        else
          let ctStr := match contentType with | some ct => ct | none => "null"
          finish { base with
            deployment_status := .error
            issues := [{ severity := .error
                         message := "Wrong content-type: " ++ ctStr
                           ++ ". Expected application/json"
                         fix := "Configure your web server to serve .json files with content-type: application/json" }] }
      else
        finish { base with
          deployment_status := .missing
          issues := [{ severity := .error
                       message := "File not found (HTTP " ++ toString status ++ ")"
                       fix := "Deploy a valid adagents.json file to " ++ url
                         ++ ". See: https://adcontextprotocol.org/docs/authorization" }] }

/-- Models `PublisherTracker.checkPublisher(domain, expectedAgents)`: a cached status
younger than the hard-coded 15-minute TTL is returned as is (the new
`expectedAgents` argument is not consulted); otherwise the status is
recomputed and cached. -/
def checkPublisher (cache : List (String × PublisherStatus)) (now : Nat)
    (domain : String) (expectedAgents : List String) (outcome : FetchOutcome) :
    PublisherStatus × List (String × PublisherStatus) :=
  match lookupAssoc cache domain with
  | some cached =>
      if (now : Int) - (cached.last_checked : Int) < 900000 then (cached, cache)
      else checkPublisherFresh cache now domain expectedAgents outcome
  | none => checkPublisherFresh cache now domain expectedAgents outcome

/-! ### Crawler (src/server/src/crawler.ts, `CrawlerService`) -/

/-- The `CrawlResult` shape of the crawler in use (crawler.ts refers to the
fields `totalProperties`, `totalPublisherDomains`, `successfulAgents`,
`failedAgents`, `errors`, `warnings`). -/
structure CrawlResult where
  totalProperties : Nat
  totalPublisherDomains : Nat
  successfulAgents : Nat
  failedAgents : Nat
  errors : List (String × String)
  warnings : List (String × String)
deriving DecidableEq, Repr

/-- Models `CrawlerService.emptyResult()`. -/
def emptyResult : CrawlResult := ⟨0, 0, 0, 0, [], []⟩

/-- The mutable fields of `CrawlerService`. -/
structure CrawlerState where
  crawling : Bool
  lastCrawl : Option Nat
  lastResult : Option CrawlResult
deriving DecidableEq, Repr

/-- Per-agent outcome of the sweep's outbound query. -/
inductive AgentOutcome where
  | success (agentUrl : String) (properties : List Property)
  | failure (agentUrl : String) (error : String)
deriving Repr

/-- Modelled from the spec: `PropertyCrawler.crawlAgents` is provided by the
external `@adcp/client` package and is not among this repository's sources
(src/unnamed/part_008 only carries its declared types).  Per §4.5 the sweep
starts from a cleared Property Index and settles every per-agent outcome: a
failure increments `failedAgents` and records the `(agent_url, error)` pair
without aborting the sweep; a success installs the agent's properties into
the index and counts them.  It resolves with a `CrawlResult` for every
outcome vector; it never rejects. -/
def crawlAgentsModel (outcomes : List AgentOutcome) : CrawlResult × PropertyIndex :=
  outcomes.foldl
    (fun acc o =>
      match o with
      | .success url props =>
          ({ acc.1 with
              totalProperties := acc.1.totalProperties + props.length
              successfulAgents := acc.1.successfulAgents + 1 },
            acc.2.addAgentProperties url props)
      | .failure url e =>
          ({ acc.1 with
              failedAgents := acc.1.failedAgents + 1
              errors := acc.1.errors ++ [(url, e)] },
            acc.2))
    (emptyResult, PropertyIndex.empty)

/-- Models `CrawlerService.crawlAllAgents(agents)` with the inner sweep's outcome
passed explicitly: while a crawl is in flight the guard returns the last
completed result (or the empty result) and touches nothing; otherwise a
resolved sweep updates `lastCrawl`/`lastResult` and installs the sweep's
index, and a rejected sweep resets the `crawling` flag and re-throws (the
catch block of crawler.ts). -/
def crawlAllAgents (s : CrawlerState) (idx : PropertyIndex) (now : Nat)
    (inner : Except String (CrawlResult × PropertyIndex)) :
    Except String CrawlResult × CrawlerState × PropertyIndex :=
  if s.crawling then (.ok (s.lastResult.getD emptyResult), s, idx)
  else
    match inner with
    | .ok (result, idx') =>
        (.ok result,
          { crawling := false, lastCrawl := some now, lastResult := some result }, idx')
    | .error e => (.error e, { s with crawling := false }, idx)

/-- The composed operation: `crawlAllAgents` around the spec-modelled sweep. -/
def crawlAllAgentsRun (s : CrawlerState) (idx : PropertyIndex) (now : Nat)
    (outcomes : List AgentOutcome) :
    Except String CrawlResult × CrawlerState × PropertyIndex :=
  crawlAllAgents s idx now (.ok (crawlAgentsModel outcomes))

/-- A failing fetch outcome: transport error, non-2xx status, missing or
non-JSON content type, unparseable body, or a body whose `authorized_agents`
is not a usable array. -/
def FetchOutcome.isFailure : FetchOutcome → Bool
  | .thrown _ => true
  | .resp status ct body =>
      if 200 ≤ status ∧ status ≤ 299 then
        if strIncludes (ct.getD "") "application/json" then
          match body with
          | .jsonError _ => true
          | .parsed m =>
              match m.authorized_agents with
              | .arr _ => false
              | _ => true
        else true
      else true

/-- A sample crawl result used by witnesses. -/
def sampleResult : CrawlResult := ⟨5, 1, 2, 1, [("https://x.example", "timeout")], []⟩

/-- A manifest listing one object-format agent URL. -/
def coverageManifest : Manifest :=
  { schemaPresent := false
    authorized_agents := .arr [.obj (some "https://a.example")]
    propertiesField := .absent
    lastUpdatedPresent := false
    domainField := none }

/-- A manifest using the deprecated flat string form of `authorized_agents`. -/
def oldFormatManifest : Manifest :=
  { schemaPresent := false
    authorized_agents := .arr [.str "https://a.example"]
    propertiesField := .absent
    lastUpdatedPresent := false
    domainField := none }

/-! ### Reverse-index membership lemmas -/

theorem mem_getList_addToSetAssoc_of_mem (m : List (String × List String))
    (k k' u u' : String) (h : u ∈ getList m k) :
    u ∈ getList (addToSetAssoc m k' u') k := by
  unfold addToSetAssoc
  by_cases hk : k = k'
  · subst hk
    rw [getList_setAssoc_self]
    by_cases hu : u' ∈ getList m k
    · simpa [hu] using h
    · simp only [hu, if_false]
      exact List.mem_append_left _ h
  · rw [getList_setAssoc_ne _ _ _ _ hk]
    exact h

theorem mem_getList_addToSetAssoc_self (m : List (String × List String)) (k u : String) :
    u ∈ getList (addToSetAssoc m k u) k := by
  unfold addToSetAssoc
  rw [getList_setAssoc_self]
  by_cases hu : u ∈ getList m k
  · simp only [if_pos hu]
    exact hu
  · simp [hu]

theorem mem_getList_addToSetAssoc_cases (m : List (String × List String))
    (k k' u u' : String) (h : u ∈ getList (addToSetAssoc m k' u') k) :
    u ∈ getList m k ∨ (u = u' ∧ k = k') := by
  unfold addToSetAssoc at h
  by_cases hk : k = k'
  · subst hk
    rw [getList_setAssoc_self] at h
    by_cases hu : u' ∈ getList m k
    · left; simpa [hu] using h
    · simp only [hu, if_false] at h
      rcases List.mem_append.mp h with h1 | h1
      · exact Or.inl h1
      · exact Or.inr ⟨List.mem_singleton.mp h1, rfl⟩
  · rw [getList_setAssoc_ne _ _ _ _ hk] at h
    exact Or.inl h

theorem addPropsToReverse_eq (m : List (String × List String)) (agentUrl : String)
    (properties : List Property) :
    addPropsToReverse m agentUrl properties =
      properties.foldl (fun m prop => addIdsToReverse m agentUrl prop.identifiers) m := rfl

theorem mem_getList_addIdsToReverse_of_mem (ids : List Identifier)
    (m : List (String × List String)) (a k u : String) (h : u ∈ getList m k) :
    u ∈ getList (addIdsToReverse m a ids) k := by
  induction ids generalizing m with
  | nil => exact h
  | cons i rest ih =>
      exact ih _ (mem_getList_addToSetAssoc_of_mem _ _ _ _ _ h)

theorem mem_getList_addIdsToReverse_self (ids : List Identifier)
    (m : List (String × List String)) (a : String) (i : Identifier) (hi : i ∈ ids) :
    a ∈ getList (addIdsToReverse m a ids) (identKey i) := by
  induction ids generalizing m with
  | nil => cases hi
  | cons j rest ih =>
      rcases List.mem_cons.mp hi with h | h
      · subst h
        exact mem_getList_addIdsToReverse_of_mem rest _ a _ a
          (mem_getList_addToSetAssoc_self _ _ _)
      · exact ih _ h

theorem mem_getList_addIdsToReverse_cases (ids : List Identifier)
    (m : List (String × List String)) (a k u : String)
    (h : u ∈ getList (addIdsToReverse m a ids) k) :
    u ∈ getList m k ∨ (u = a ∧ ∃ i ∈ ids, identKey i = k) := by
  induction ids generalizing m with
  | nil => exact Or.inl h
  | cons j rest ih =>
      rcases ih _ h with h1 | h1
      · rcases mem_getList_addToSetAssoc_cases _ _ _ _ _ h1 with h2 | h2
        · exact Or.inl h2
        · exact Or.inr ⟨h2.1, j, List.mem_cons_self _ _, h2.2.symm⟩
      · exact Or.inr ⟨h1.1, h1.2.imp (fun i hi => ⟨List.mem_cons_of_mem _ hi.1, hi.2⟩)⟩

theorem mem_getList_addPropsToReverse_of_mem (properties : List Property)
    (m : List (String × List String)) (a k u : String) (h : u ∈ getList m k) :
    u ∈ getList (addPropsToReverse m a properties) k := by
  rw [addPropsToReverse_eq]
  induction properties generalizing m with
  | nil => exact h
  | cons p rest ih => exact ih _ (mem_getList_addIdsToReverse_of_mem _ _ _ _ _ h)

theorem mem_getList_addPropsToReverse_self (properties : List Property)
    (m : List (String × List String)) (a : String) (p : Property) (hp : p ∈ properties)
    (i : Identifier) (hi : i ∈ p.identifiers) :
    a ∈ getList (addPropsToReverse m a properties) (identKey i) := by
  induction properties generalizing m with
  | nil => cases hp
  | cons q rest ih =>
      rcases List.mem_cons.mp hp with h | h
      · subst h
        have h1 := mem_getList_addIdsToReverse_self p.identifiers m a i hi
        exact mem_getList_addPropsToReverse_of_mem rest _ a _ a h1
      · exact ih _ h

theorem mem_getList_addPropsToReverse_cases (properties : List Property)
    (m : List (String × List String)) (a k u : String)
    (h : u ∈ getList (addPropsToReverse m a properties) k) :
    u ∈ getList m k ∨ (u = a ∧ ∃ p ∈ properties, ∃ i ∈ p.identifiers, identKey i = k) := by
  rw [addPropsToReverse_eq] at h
  induction properties generalizing m with
  | nil => exact Or.inl h
  | cons p rest ih =>
      rcases ih _ h with h1 | h1
      · rcases mem_getList_addIdsToReverse_cases _ _ _ _ _ h1 with h2 | h2
        · exact Or.inl h2
        · exact Or.inr ⟨h2.1, p, List.mem_cons_self _ _, h2.2⟩
      · exact Or.inr ⟨h1.1, h1.2.imp (fun q hq => ⟨List.mem_cons_of_mem _ hq.1, hq.2⟩)⟩

/-! ### The forward/reverse consistency invariant of reachable states -/

/-- Invariant: every identifier of every currently claimed property of agent
`a` has `a` registered in the reverse index under the identifier's key. -/
def IndexInv (idx : PropertyIndex) : Prop :=
  ∀ a p, p ∈ getList idx.agentProperties a →
    ∀ i ∈ p.identifiers, a ∈ getList idx.propertyToAgents (identKey i)

theorem indexInv_empty : IndexInv PropertyIndex.empty := by
  intro a p hp
  simp [PropertyIndex.empty, getList, lookupAssoc] at hp

theorem indexInv_addAgentProperties (idx : PropertyIndex) (agentUrl : String)
    (properties : List Property) (h : IndexInv idx) :
    IndexInv (idx.addAgentProperties agentUrl properties) := by
  intro a p hp i hi
  unfold PropertyIndex.addAgentProperties at hp ⊢
  simp only at hp ⊢
  by_cases ha : a = agentUrl
  · subst ha
    rw [getList_setAssoc_self] at hp
    exact mem_getList_addPropsToReverse_self _ _ _ _ hp _ hi
  · rw [getList_setAssoc_ne _ _ _ _ ha] at hp
    exact mem_getList_addPropsToReverse_of_mem _ _ _ _ _ (h a p hp i hi)

theorem indexInv_applyOp (idx : PropertyIndex) (op : IndexOp) (h : IndexInv idx) :
    IndexInv (idx.applyOp op) := by
  cases op with
  | add a ps => exact indexInv_addAgentProperties idx a ps h
  | clear => exact indexInv_empty

theorem indexInv_foldl (ops : List IndexOp) (idx : PropertyIndex) (h : IndexInv idx) :
    IndexInv (ops.foldl PropertyIndex.applyOp idx) := by
  induction ops generalizing idx with
  | nil => exact h
  | cons op rest ih => exact ih _ (indexInv_applyOp idx op h)

theorem indexInv_runOps (ops : List IndexOp) : IndexInv (runOps ops) :=
  indexInv_foldl ops PropertyIndex.empty indexInv_empty

/-! ### `findAgentsForProperty` membership characterization -/

theorem mem_findAgentsForProperty_intro (idx : PropertyIndex) (t v : String)
    (a : String) (p : Property)
    (hrev : a ∈ getList idx.propertyToAgents (t ++ ":" ++ v))
    (hfwd : p ∈ getList idx.agentProperties a)
    (hid : p.identifiers.any (fun id => id.type == t && id.value == v) = true) :
    ({ property := p, agent_url := a, publisher_domain := p.publisher_domain }
        : PropertyMatch) ∈ idx.findAgentsForProperty t v := by
  unfold PropertyIndex.findAgentsForProperty
  refine List.mem_flatMap.mpr ⟨a, hrev, ?_⟩
  exact List.mem_map_of_mem _ (List.mem_filter.mpr ⟨hfwd, hid⟩)

theorem mem_findAgentsForProperty_elim (idx : PropertyIndex) (t v : String)
    (m : PropertyMatch) (h : m ∈ idx.findAgentsForProperty t v) :
    m.property ∈ getList idx.agentProperties m.agent_url ∧
      m.property.identifiers.any (fun id => id.type == t && id.value == v) = true := by
  unfold PropertyIndex.findAgentsForProperty at h
  rcases List.mem_flatMap.mp h with ⟨a, _, hm⟩
  rcases List.mem_map.mp hm with ⟨p, hp, hpm⟩
  rcases List.mem_filter.mp hp with ⟨hfwd, hid⟩
  cases hpm
  exact ⟨hfwd, hid⟩

/-! ### Claim theorems: C1 and C2 -/

/-- Claim C1: in every reachable index state, an agent whose current claim set
contains a property carrying identifier `{t, v}` is returned by
`findAgentsForProperty(t, v)`; and after that agent's claim set is replaced by
`addAgentProperties` with one in which no property carries `{t, v}`, no match
with that agent URL is returned. -/
theorem claim_C1_find_agents_consistent (ops : List IndexOp) (A t v : String)
    (p : Property)
    (h1 : p ∈ getList (runOps ops).agentProperties A)
    (h2 : Identifier.mk t v ∈ p.identifiers) :
    (∃ m ∈ (runOps ops).findAgentsForProperty t v, m.agent_url = A) ∧
    (∀ P : List Property,
      (∀ q ∈ P, ∀ id ∈ q.identifiers, ¬(id.type = t ∧ id.value = v)) →
      ∀ m ∈ ((runOps ops).addAgentProperties A P).findAgentsForProperty t v,
        m.agent_url ≠ A) := by
  constructor
  · have hrev : A ∈ getList (runOps ops).propertyToAgents (t ++ ":" ++ v) := by
      have := indexInv_runOps ops A p h1 _ h2
      simpa [identKey] using this
    have hid : p.identifiers.any (fun id => id.type == t && id.value == v) = true := by
      refine List.any_eq_true.mpr ⟨Identifier.mk t v, h2, ?_⟩
      simp
    exact ⟨_, mem_findAgentsForProperty_intro (runOps ops) t v A p hrev h1 hid, rfl⟩
  · intro P hP m hm hma
    have helim := mem_findAgentsForProperty_elim _ t v m hm
    rw [hma] at helim
    have hfwd : m.property ∈ P := by
      have := helim.1
      unfold PropertyIndex.addAgentProperties at this
      simpa [getList_setAssoc_self] using this
    rcases List.any_eq_true.mp helim.2 with ⟨i, hi, hiv⟩
    simp only [Bool.and_eq_true, beq_iff_eq] at hiv
    exact hP m.property hfwd i hi ⟨hiv.1, hiv.2⟩

theorem claim_C1_witness :
    (∃ m ∈ (runOps [IndexOp.add "A" [sampleProp]]).findAgentsForProperty "domain" "a.com",
        m.agent_url = "A") ∧
    (∀ m ∈ ((runOps [IndexOp.add "A" [sampleProp]]).addAgentProperties "A"
        ([] : List Property)).findAgentsForProperty "domain" "a.com",
        m.agent_url ≠ "A") := by
  have h := claim_C1_find_agents_consistent [IndexOp.add "A" [sampleProp]]
    "A" "domain" "a.com" sampleProp (by decide) (by decide)
  exact ⟨h.1, h.2 [] (by decide)⟩

/-- Claim C2 counterexample: install a property with identifier
`{domain, a.com}` for agent `A`, then replace `A`'s claim set with the empty
set.  The reverse index still lists `A` under key `"domain:a.com"` although
`A`'s current forward-map claim set is empty, so the no-stale-reference
invariant asserted by the claim fails. -/
theorem claim_C2_counterexample :
    "A" ∈ getList (((PropertyIndex.empty.addAgentProperties "A" [sampleProp]
        ).addAgentProperties "A" ([] : List Property)).propertyToAgents) "domain:a.com" ∧
    getList (((PropertyIndex.empty.addAgentProperties "A" [sampleProp]
        ).addAgentProperties "A" ([] : List Property)).agentProperties) "A" = [] := by
  decide

/-- Claim C2 (amended): `addAgentProperties(agentUrl, properties)` installs the
new claim set wholesale and registers `agentUrl` under the key of every
identifier of the new set, but does not remove stale reverse-index references:
any key under which `agentUrl` appears afterwards either was already present
before the call or is carried by a property of the new set.  Stale references
are not observable through `findAgentsForProperty`, which re-checks the
forward map and never returns `agentUrl` for an identifier no current property
carries. -/
theorem claim_C2_reverse_index_amended (idx : PropertyIndex) (agentUrl : String)
    (properties : List Property) :
    getList (idx.addAgentProperties agentUrl properties).agentProperties agentUrl
        = properties ∧
    (∀ p ∈ properties, ∀ i ∈ p.identifiers,
      agentUrl ∈
        getList (idx.addAgentProperties agentUrl properties).propertyToAgents (identKey i)) ∧
    (∀ k, agentUrl ∈
        getList (idx.addAgentProperties agentUrl properties).propertyToAgents k →
      agentUrl ∈ getList idx.propertyToAgents k ∨
        ∃ p ∈ properties, ∃ i ∈ p.identifiers, identKey i = k) ∧
    (∀ t v, (∀ q ∈ properties, ∀ id ∈ q.identifiers, ¬(id.type = t ∧ id.value = v)) →
      ∀ m ∈ (idx.addAgentProperties agentUrl properties).findAgentsForProperty t v,
        m.agent_url ≠ agentUrl) := by
  refine ⟨?_, ?_, ?_, ?_⟩
  · unfold PropertyIndex.addAgentProperties
    simpa using getList_setAssoc_self idx.agentProperties agentUrl properties
  · intro p hp i hi
    exact mem_getList_addPropsToReverse_self properties idx.propertyToAgents agentUrl p hp i hi
  · intro k hk
    rcases mem_getList_addPropsToReverse_cases properties idx.propertyToAgents
        agentUrl k agentUrl hk with h | h
    · exact Or.inl h
    · exact Or.inr h.2
  · intro t v hP m hm hma
    have helim := mem_findAgentsForProperty_elim _ t v m hm
    rw [hma] at helim
    have hfwd : m.property ∈ properties := by
      have := helim.1
      unfold PropertyIndex.addAgentProperties at this
      simpa [getList_setAssoc_self] using this
    rcases List.any_eq_true.mp helim.2 with ⟨i, hi, hiv⟩
    simp only [Bool.and_eq_true, beq_iff_eq] at hiv
    exact hP m.property hfwd i hi ⟨hiv.1, hiv.2⟩

/-! ### Claim theorems: C4 and C8 -/

theorem fetchAndValidate_domain_eq (d a : String) (now : Nat) (o : FetchOutcome) :
    (fetchAndValidate d a now o).domain = normalizeDomain d := by
  unfold fetchAndValidate
  cases o with
  | thrown e => rfl
  | resp status ct body =>
      dsimp only
      split
      · split
        · cases body with
          | jsonError e => rfl
          | parsed data =>
              obtain ⟨sch, aa, pf, lu, dom⟩ := data
              cases aa with
              | absent => rfl
              | notArray => rfl
              | arr entries =>
                  dsimp only
                  cases someAuthorized entries (stripTrailingSlash a) <;> rfl
        · rfl
      · rfl

theorem normalizeDomain_eq_amended (d : String) :
    normalizeDomain d = amendedNormalizeDomain d := by
  unfold normalizeDomain amendedNormalizeDomain stripTrailingSlash
  rfl

/-- Claim C4 counterexample: the source normalization strips the scheme and a
trailing slash but does not lower-case, so at domain `NYTimes.com` the claimed
normalization (which lower-cases) disagrees with the code, and the fetched URL
keeps the upper-case letters. -/
theorem claim_C4_counterexample :
    normalizeDomain "NYTimes.com" = "NYTimes.com" ∧
    claimedNormalizeDomain "NYTimes.com" = "nytimes.com" ∧
    adagentsUrl "NYTimes.com" = "https://NYTimes.com/.well-known/adagents.json" ∧
    normalizeDomain "NYTimes.com" ≠ claimedNormalizeDomain "NYTimes.com" := by
  decide

/-- Claim C4 (amended): for every domain string, `validate` normalizes the
domain argument by stripping a leading `http://` or `https://` scheme and one
trailing slash, preserving letter case, fetches the manifest from
`https://` ++ normalized ++ `/.well-known/adagents.json`, and reports the
normalized domain in every result. -/
theorem claim_C4_normalize_amended (domain agentUrl : String) (now : Nat)
    (outcome : FetchOutcome) :
    normalizeDomain domain = amendedNormalizeDomain domain ∧
    (fetchAndValidate domain agentUrl now outcome).domain = amendedNormalizeDomain domain ∧
    adagentsUrl domain =
      "https://" ++ amendedNormalizeDomain domain ++ "/.well-known/adagents.json" := by
  refine ⟨normalizeDomain_eq_amended domain, ?_, ?_⟩
  · rw [fetchAndValidate_domain_eq, normalizeDomain_eq_amended]
  · unfold adagentsUrl
    rw [normalizeDomain_eq_amended]

/-- Claim C8: for domain `nytimes.com` and agent URL
`https://sales.example.com/`, a JSON manifest whose `authorized_agents` lists
`https://sales.example.com` makes `validate` return `authorized = true`: the
membership test strips one trailing slash from each side. -/
theorem claim_C8_trailing_slash_match :
    (validate ⟨[], 900000⟩ 0 "nytimes.com" "https://sales.example.com/"
        (.resp 200 (some "application/json") (.parsed nytManifest))).1.authorized = true := by
  decide

/-! ### Claim theorems: C5 (single-flight guard) -/

/-- Claim C5: a `crawlAllAgents` call made while a crawl is in flight returns
the previous `CrawlResult` unchanged, leaves the crawler state and the
Property Index untouched, and starts no second sweep — the reply does not
depend on the new outcome vector. -/
theorem claim_C5_single_flight (s : CrawlerState) (idx : PropertyIndex) (now : Nat)
    (outcomes : List AgentOutcome) (r : CrawlResult)
    (hc : s.crawling = true) (hr : s.lastResult = some r) :
    crawlAllAgentsRun s idx now outcomes = (.ok r, s, idx) := by
  unfold crawlAllAgentsRun crawlAllAgents
  rw [hc]
  simp [hr]

theorem claim_C5_witness :
    crawlAllAgentsRun ⟨true, none, some sampleResult⟩ PropertyIndex.empty 7
        [AgentOutcome.failure "https://y.example" "boom"]
      = (.ok sampleResult, ⟨true, none, some sampleResult⟩, PropertyIndex.empty) :=
  claim_C5_single_flight _ _ _ _ sampleResult rfl rfl

/-! ### Claim theorems: C10 (tracker cache TTL) -/

theorem checkPublisherFresh_fields (cache : List (String × PublisherStatus)) (now : Nat)
    (d : String) (e : List String) (o : FetchOutcome) :
    (checkPublisherFresh cache now d e o).1.last_checked = now ∧
    (checkPublisherFresh cache now d e o).1.expected_agents = e ∧
    (checkPublisherFresh cache now d e o).2
      = setAssoc cache d (checkPublisherFresh cache now d e o).1 := by
  unfold checkPublisherFresh
  cases o with
  | thrown er => exact ⟨rfl, rfl, rfl⟩
  | resp status ct body =>
      dsimp only
      split
      · split
        · cases body with
          | jsonError er => exact ⟨rfl, rfl, rfl⟩
          | parsed content =>
              dsimp only
              split
              · exact ⟨rfl, rfl, rfl⟩
              · exact ⟨rfl, rfl, rfl⟩
        · exact ⟨rfl, rfl, rfl⟩
      · exact ⟨rfl, rfl, rfl⟩

theorem checkPublisher_miss (cache : List (String × PublisherStatus)) (now : Nat)
    (d : String) (e : List String) (o : FetchOutcome)
    (h : lookupAssoc cache d = none) :
    checkPublisher cache now d e o = checkPublisherFresh cache now d e o := by
  unfold checkPublisher
  rw [h]

theorem checkPublisher_hit (cache : List (String × PublisherStatus)) (now : Nat)
    (d : String) (e : List String) (o : FetchOutcome) (st : PublisherStatus)
    (h : lookupAssoc cache d = some st)
    (hf : (now : Int) - (st.last_checked : Int) < 900000) :
    checkPublisher cache now d e o = (st, cache) := by
  unfold checkPublisher
  rw [h]
  simp [hf]

/-- Claim C10: a `checkPublisher` status computed at `t1` (cache miss) is
returned verbatim by any further call for the same domain within the
15-minute TTL, whatever expected-agent list and fetch outcome that call
passes; the returned status carries the first call's `expected_agents`, and
the cache is left untouched. -/
theorem claim_C10_cache_ttl (cache : List (String × PublisherStatus)) (t1 t2 : Nat)
    (d : String) (e1 e2 : List String) (o1 o2 : FetchOutcome)
    (hmiss : lookupAssoc cache d = none)
    (hfresh : (t2 : Int) - (t1 : Int) < 900000) :
    (checkPublisher (checkPublisher cache t1 d e1 o1).2 t2 d e2 o2).1
        = (checkPublisher cache t1 d e1 o1).1 ∧
    (checkPublisher (checkPublisher cache t1 d e1 o1).2 t2 d e2 o2).2
        = (checkPublisher cache t1 d e1 o1).2 ∧
    (checkPublisher cache t1 d e1 o1).1.expected_agents = e1 := by
  obtain ⟨hlc, hexp, hcache⟩ := checkPublisherFresh_fields cache t1 d e1 o1
  rw [checkPublisher_miss cache t1 d e1 o1 hmiss]
  have hhit := checkPublisher_hit (checkPublisherFresh cache t1 d e1 o1).2 t2 d e2 o2
    (checkPublisherFresh cache t1 d e1 o1).1
    (by rw [hcache]; exact lookupAssoc_setAssoc_self _ _ _)
    (by rw [hlc]; exact hfresh)
  rw [hhit]
  exact ⟨rfl, rfl, hexp⟩

theorem claim_C10_witness :
    (checkPublisher (checkPublisher [] 0 "pub.example" ["https://a.example"]
          (FetchOutcome.thrown ⟨true, "TypeError", "boom"⟩)).2 1000 "pub.example"
        ["https://b.example"] (FetchOutcome.thrown ⟨true, "TypeError", "again"⟩)).1
      = (checkPublisher [] 0 "pub.example" ["https://a.example"]
          (FetchOutcome.thrown ⟨true, "TypeError", "boom"⟩)).1 ∧
    (checkPublisher [] 0 "pub.example" ["https://a.example"]
        (FetchOutcome.thrown ⟨true, "TypeError", "boom"⟩)).1.expected_agents
      = ["https://a.example"] := by
  have h := claim_C10_cache_ttl [] 0 1000 "pub.example" ["https://a.example"]
    ["https://b.example"] (FetchOutcome.thrown ⟨true, "TypeError", "boom"⟩)
    (FetchOutcome.thrown ⟨true, "TypeError", "again"⟩) rfl (by decide)
  exact ⟨h.1, h.2.2⟩

/-! ### Coverage arithmetic -/

theorem roundPct_zero (n : Nat) (hn : 0 < n) : roundPct 0 n = 0 := by
  unfold roundPct
  rw [Nat.mul_zero, Nat.zero_add]
  exact Nat.div_eq_of_lt (by omega)

theorem roundPct_le_100 (k n : Nat) (hk : k ≤ n) (hn : 0 < n) : roundPct k n ≤ 100 := by
  unfold roundPct
  calc (200 * k + n) / (2 * n) ≤ (201 * n) / (2 * n) := Nat.div_le_div_right (by omega)
    _ = 100 := by
        have h : (201 : Nat) * n = n + (2 * n) * 100 := by ring
        rw [h, Nat.add_mul_div_left _ _ (by omega : 0 < 2 * n),
          Nat.div_eq_of_lt (by omega)]

theorem roundPct_mono (k k' n : Nat) (h : k ≤ k') : roundPct k n ≤ roundPct k' n := by
  unfold roundPct
  exact Nat.div_le_div_right (by omega)

theorem length_filter_le_of_imp {α : Type} (l : List α) (p q : α → Bool)
    (h : ∀ x ∈ l, p x = true → q x = true) :
    (l.filter p).length ≤ (l.filter q).length := by
  induction l with
  | nil => simp
  | cons x xs ih =>
      have ih' := ih (fun y hy hp => h y (List.mem_cons_of_mem _ hy) hp)
      by_cases hp : p x = true
      · have hq := h x (List.mem_cons_self _ _) hp
        simp only [List.filter_cons, hp, hq, if_pos trivial, List.length_cons]
        exact Nat.succ_le_succ ih'
      · by_cases hq : q x = true
        · simp only [List.filter_cons, hp, hq, List.length_cons]
          simp only [Bool.false_eq_true, if_false, if_pos trivial, List.length_cons]
          exact Nat.le_succ_of_le ih'
        · simp only [List.filter_cons, hp, hq, Bool.false_eq_true, if_false]
          exact ih'

/-! ### Tracker coverage and schema lemmas -/

theorem checkPublisher_coverage (cache : List (String × PublisherStatus)) (now : Nat)
    (d : String) (expected : List String) (status : Nat) (ct : String) (m : Manifest)
    (hmiss : lookupAssoc cache d = none)
    (hok : 200 ≤ status ∧ status ≤ 299)
    (hct : strIncludes ct "application/json" = true) :
    (checkPublisher cache now d expected
        (.resp status (some ct) (.parsed m))).1.coverage_percentage
      = if expected = [] then 0
        else roundPct
          ((expected.filter (fun e => (extractedAgents m).contains (some e))).length)
          expected.length := by
  rw [checkPublisher_miss _ _ _ _ _ hmiss]
  obtain ⟨sch, aa, pf, lu, dom⟩ := m
  unfold checkPublisherFresh
  dsimp only
  rw [if_pos hok, if_pos (show (match some ct with
    | some c => strIncludes c "application/json"
    | none => false) = true from hct)]
  cases aa with
  | arr entries =>
      dsimp only [extractedAgents]
      cases expected with
      | nil => rfl
      | cons x xs =>
          rw [if_pos (by simp : (x :: xs).length > 0), if_neg (by simp)]
  | absent =>
      dsimp only [extractedAgents]
      cases expected with
      | nil => rfl
      | cons x xs =>
          rw [if_pos (by simp : (x :: xs).length > 0), if_neg (by simp)]
  | notArray =>
      dsimp only [extractedAgents]
      cases expected with
      | nil => rfl
      | cons x xs =>
          rw [if_neg (by simp)]
          have hc : (fun e => (([] : List (Option String)).contains (some e))) = fun _ => false := by
            funext e
            rfl
          rw [hc, List.filter_false, List.length_nil]
          exact (roundPct_zero ((x :: xs).length) (by simp)).symm

/-- Claim C6: after a successful fetch and parse (cache miss, 2xx status,
JSON content type), `checkPublisher` reports
`coverage_percentage = round(100 * matched / |expected|)` (round half up),
where `matched` counts the expected agents appearing in the extracted
`authorized_agents` list, and 0 when the expected list is empty; in
particular 3 expected agents with exactly 1 listed give 33. -/
theorem claim_C6_coverage_formula (cache : List (String × PublisherStatus)) (now : Nat)
    (d : String) (expected : List String) (status : Nat) (ct : String) (m : Manifest)
    (hmiss : lookupAssoc cache d = none)
    (hok : 200 ≤ status ∧ status ≤ 299)
    (hct : strIncludes ct "application/json" = true) :
    (checkPublisher cache now d expected
        (.resp status (some ct) (.parsed m))).1.coverage_percentage
      = if expected = [] then 0
        else roundPct
          ((expected.filter (fun e => (extractedAgents m).contains (some e))).length)
          expected.length :=
  checkPublisher_coverage cache now d expected status ct m hmiss hok hct

theorem claim_C6_witness :
    (checkPublisher [] 0 "pub.example"
        ["https://a.example", "https://b.example", "https://c.example"]
        (.resp 200 (some "application/json")
          (.parsed coverageManifest))).1.coverage_percentage = 33 := by
  rw [claim_C6_coverage_formula [] 0 "pub.example"
    ["https://a.example", "https://b.example", "https://c.example"] 200
    "application/json" coverageManifest rfl (by omega) (by decide)]
  decide

/-- Claim C7: the reported coverage always lies in `[0, 100]`, and appending
to the manifest's `authorized_agents` an entry whose URL equals some expected
agent never decreases the coverage. -/
theorem claim_C7_coverage_bounds_monotone (cache : List (String × PublisherStatus))
    (now : Nat) (d : String) (expected : List String) (status : Nat) (ct : String)
    (m : Manifest) (entries : List AuthEntry) (a : AuthEntry) (u : String)
    (hmiss : lookupAssoc cache d = none)
    (hok : 200 ≤ status ∧ status ≤ 299)
    (hct : strIncludes ct "application/json" = true)
    (hm : m.authorized_agents = .arr entries)
    (ha : extractUrl a = some u) (hu : u ∈ expected) :
    0 ≤ (checkPublisher cache now d expected
        (.resp status (some ct) (.parsed m))).1.coverage_percentage ∧
    (checkPublisher cache now d expected
        (.resp status (some ct) (.parsed m))).1.coverage_percentage ≤ 100 ∧
    (checkPublisher cache now d expected
        (.resp status (some ct) (.parsed m))).1.coverage_percentage ≤
      (checkPublisher cache now d expected (.resp status (some ct)
        (.parsed { m with authorized_agents := .arr (entries ++ [a]) }))).1.coverage_percentage := by
  have h1 := checkPublisher_coverage cache now d expected status ct m hmiss hok hct
  have h2 := checkPublisher_coverage cache now d expected status ct
    { m with authorized_agents := .arr (entries ++ [a]) } hmiss hok hct
  refine ⟨Nat.zero_le _, ?_, ?_⟩
  · rw [h1]
    cases expected with
    | nil => simp
    | cons x xs =>
        rw [if_neg (by simp)]
        exact roundPct_le_100 _ _ (List.length_filter_le _ _) (Nat.succ_pos _)
  · rw [h1, h2]
    cases expected with
    | nil => simp
    | cons x xs =>
        rw [if_neg (by simp), if_neg (by simp)]
        refine roundPct_mono _ _ _ ?_
        refine length_filter_le_of_imp _ _ _ ?_
        intro e he hcontains
        have hext : extractedAgents { m with authorized_agents := AAValue.arr (entries ++ [a]) }
            = extractedAgents m ++ [extractUrl a] := by
          simp [extractedAgents, hm]
        rw [hext]
        have hmem : some e ∈ extractedAgents m := by simpa using hcontains
        simpa using Or.inl hmem

theorem claim_C7_witness :
    0 ≤ (checkPublisher [] 0 "pub.example"
        ["https://a.example", "https://b.example", "https://c.example"]
        (.resp 200 (some "application/json")
          (.parsed coverageManifest))).1.coverage_percentage ∧
    (checkPublisher [] 0 "pub.example"
        ["https://a.example", "https://b.example", "https://c.example"]
        (.resp 200 (some "application/json")
          (.parsed coverageManifest))).1.coverage_percentage ≤ 100 ∧
    (checkPublisher [] 0 "pub.example"
        ["https://a.example", "https://b.example", "https://c.example"]
        (.resp 200 (some "application/json")
          (.parsed coverageManifest))).1.coverage_percentage ≤
      (checkPublisher [] 0 "pub.example"
        ["https://a.example", "https://b.example", "https://c.example"]
        (.resp 200 (some "application/json")
          (.parsed { coverageManifest with authorized_agents := .arr ([.obj (some "https://a.example")] ++ [.obj (some "https://b.example")]) }))).1.coverage_percentage :=
  claim_C7_coverage_bounds_monotone [] 0 "pub.example"
    ["https://a.example", "https://b.example", "https://c.example"] 200
    "application/json" coverageManifest [.obj (some "https://a.example")]
    (.obj (some "https://b.example")) "https://b.example" rfl (by omega) (by decide)
    rfl (by decide) (by decide)

/-- A manifest whose `authorized_agents` array starts with a bare string is
classified old-schema: `validateSchema` returns invalid, the old-schema flag,
and an issue mentioning the old string format. -/
theorem validateSchema_oldString (content : Manifest) (t : String) (es : List AuthEntry)
    (h : content.authorized_agents = .arr (.str t :: es)) :
    (validateSchema content).1 = false ∧ (validateSchema content).2.1 = true ∧
    ∃ i ∈ (validateSchema content).2.2,
      strIncludes i.message "old string format" = true := by
  unfold validateSchema
  rw [h]
  dsimp only
  refine ⟨?_, ?_, ?_⟩
  · simp [checkEntries]
  · simp [checkEntries]
  · refine ⟨{ severity := .warning
              message := "Using old string format for authorized_agents"
              fix := "Update to object format: \x7b\"url\": \"https://....\", \"authorized_for\": \"Description\"\x7d" },
      ?_, by decide⟩
    simp [checkEntries, List.mem_append]

/-- Claim C9: a fetched, JSON-parseable manifest whose `authorized_agents` is
a (non-empty) flat array of strings yields `deployment_status =
schema_outdated` and an issue mentioning the deprecated old string format. -/
theorem claim_C9_old_string_format (cache : List (String × PublisherStatus)) (now : Nat)
    (d : String) (expected : List String) (status : Nat) (ct : String) (m : Manifest)
    (entries : List AuthEntry)
    (hmiss : lookupAssoc cache d = none)
    (hok : 200 ≤ status ∧ status ≤ 299)
    (hct : strIncludes ct "application/json" = true)
    (hm : m.authorized_agents = .arr entries)
    (hne : entries ≠ [])
    (hall : ∀ en ∈ entries, ∃ s, en = AuthEntry.str s) :
    (checkPublisher cache now d expected
        (.resp status (some ct) (.parsed m))).1.deployment_status
      = DeploymentStatus.schema_outdated ∧
    ∃ i ∈ (checkPublisher cache now d expected
        (.resp status (some ct) (.parsed m))).1.issues,
      strIncludes i.message "old string format" = true := by
  obtain ⟨en, es, rfl⟩ : ∃ en es, entries = en :: es := by
    cases entries with
    | nil => exact absurd rfl hne
    | cons en es => exact ⟨en, es, rfl⟩
  obtain ⟨t, rfl⟩ := hall _ (List.mem_cons_self _ _)
  have hv := validateSchema_oldString m t es hm
  rw [checkPublisher_miss _ _ _ _ _ hmiss]
  obtain ⟨sch, aa, pf, lu, dom⟩ := m
  dsimp only at hm
  subst hm
  unfold checkPublisherFresh
  dsimp only
  rw [if_pos hok, if_pos (show (match some ct with
    | some c => strIncludes c "application/json"
    | none => false) = true from hct)]
  dsimp only
  constructor
  · rw [hv.1, hv.2.1]
    rfl
  · obtain ⟨i, hi, hP⟩ := hv.2.2
    exact ⟨i, List.mem_append_left _ hi, hP⟩

theorem claim_C9_witness :
    (checkPublisher [] 0 "pub.example" []
        (.resp 200 (some "application/json")
          (.parsed oldFormatManifest))).1.deployment_status
      = DeploymentStatus.schema_outdated ∧
    ∃ i ∈ (checkPublisher [] 0 "pub.example" []
        (.resp 200 (some "application/json") (.parsed oldFormatManifest))).1.issues,
      strIncludes i.message "old string format" = true :=
  claim_C9_old_string_format [] 0 "pub.example" [] 200 "application/json"
    oldFormatManifest [.str "https://a.example"] rfl (by omega) (by decide) rfl
    (by simp)
    (by
      intro en hen
      rw [List.mem_singleton] at hen
      exact ⟨_, hen⟩)

/-! ### Claim C3: structured failure results -/

theorem validateSchema_issues_ne_nil_of_bad (content : Manifest)
    (h : ∀ es, content.authorized_agents ≠ AAValue.arr es) :
    (validateSchema content).2.2 ≠ [] := by
  unfold validateSchema
  obtain ⟨sch, aa, pf, lu, dom⟩ := content
  cases aa with
  | arr es => exact absurd rfl (h es)
  | absent =>
      dsimp only
      intro heq
      simp [List.append_eq_nil] at heq
  | notArray =>
      dsimp only
      intro heq
      simp [List.append_eq_nil] at heq

/-- Claim C3: no failure of the underlying fetch/agent call escapes as a
thrown failure.  The validator core returns `authorized = false` with an
explanatory error for every failing fetch outcome; `checkPublisher` returns a
status whose issues describe the failure; and `crawlAllAgents` around the
spec-modelled sweep (which settles every per-agent outcome) always resolves
with a `CrawlResult` instead of rejecting. -/
theorem claim_C3_structured_failures :
    (∀ (d a : String) (now : Nat) (o : FetchOutcome), o.isFailure = true →
      (fetchAndValidate d a now o).authorized = false ∧
      ((fetchAndValidate d a now o).error).isSome = true) ∧
    (∀ (cache : List (String × PublisherStatus)) (now : Nat) (d : String)
        (e : List String) (o : FetchOutcome), lookupAssoc cache d = none →
      o.isFailure = true → (checkPublisher cache now d e o).1.issues ≠ []) ∧
    (∀ (s : CrawlerState) (idx : PropertyIndex) (now : Nat)
        (outcomes : List AgentOutcome),
      ∃ r, (crawlAllAgentsRun s idx now outcomes).1 = Except.ok r) := by
  refine ⟨?_, ?_, ?_⟩
  · intro d a now o hf
    cases o with
    | thrown e => exact ⟨rfl, rfl⟩
    | resp status ct body =>
        unfold FetchOutcome.isFailure at hf
        unfold fetchAndValidate
        dsimp only at hf ⊢
        by_cases h1 : 200 ≤ status ∧ status ≤ 299
        · rw [if_pos h1] at hf ⊢
          by_cases h2 : strIncludes (ct.getD "") "application/json" = true
          · rw [if_pos h2] at hf ⊢
            cases body with
            | jsonError e => exact ⟨rfl, rfl⟩
            | parsed data =>
                obtain ⟨sch, aa, pf, lu, dom⟩ := data
                cases aa with
                | arr es => exact absurd hf (by simp)
                | absent => exact ⟨rfl, rfl⟩
                | notArray => exact ⟨rfl, rfl⟩
          · rw [if_neg h2]
            exact ⟨rfl, rfl⟩
        · rw [if_neg h1]
          exact ⟨rfl, rfl⟩
  · intro cache now d e o hmiss hf
    rw [checkPublisher_miss _ _ _ _ _ hmiss]
    cases o with
    | thrown er => simp [checkPublisherFresh]
    | resp status ct body =>
        unfold FetchOutcome.isFailure at hf
        unfold checkPublisherFresh
        dsimp only at hf ⊢
        by_cases h1 : 200 ≤ status ∧ status ≤ 299
        · rw [if_pos h1] at hf ⊢
          cases ct with
          | none =>
              dsimp only
              rw [if_neg (by decide : ¬ ((false : Bool) = true))]
              simp
          | some c =>
              dsimp only
              simp only [Option.getD_some] at hf
              by_cases h2 : strIncludes c "application/json" = true
              · rw [if_pos h2] at hf ⊢
                cases body with
                | jsonError er => simp
                | parsed content =>
                    dsimp only at hf ⊢
                    obtain ⟨sch, aa, pf, lu, dom⟩ := content
                    cases aa with
                    | arr es =>
                        dsimp only at hf
                        exact absurd hf (by simp)
                    | absent =>
                        dsimp only
                        intro heq
                        rw [List.append_eq_nil] at heq
                        exact validateSchema_issues_ne_nil_of_bad
                          ⟨sch, .absent, pf, lu, dom⟩
                          (fun es h => AAValue.noConfusion h) heq.1
                    | notArray =>
                        dsimp only
                        intro heq
                        simp [List.append_eq_nil] at heq
              · rw [if_neg h2]
                simp
        · rw [if_neg h1]
          simp
  · intro s idx now outcomes
    unfold crawlAllAgentsRun crawlAllAgents
    cases hcr : s.crawling with
    | true => exact ⟨_, rfl⟩
    | false => exact ⟨_, rfl⟩

theorem claim_C3_witness :
    (fetchAndValidate "pub.example" "https://a.example" 0
        (.thrown ⟨true, "TypeError", "boom"⟩)).authorized = false ∧
    ((fetchAndValidate "pub.example" "https://a.example" 0
        (.thrown ⟨true, "TypeError", "boom"⟩)).error).isSome = true :=
  claim_C3_structured_failures.1 "pub.example" "https://a.example" 0
    (.thrown ⟨true, "TypeError", "boom"⟩) rfl

theorem claim_C2_amended_witness :
    getList ((PropertyIndex.empty.addAgentProperties "A" [sampleProp]).agentProperties) "A"
        = [sampleProp] ∧
    "A" ∈ getList ((PropertyIndex.empty.addAgentProperties "A"
        [sampleProp]).propertyToAgents) "domain:a.com" := by
  have h := claim_C2_reverse_index_amended PropertyIndex.empty "A" [sampleProp]
  refine ⟨h.1, ?_⟩
  have h2 := h.2.1 sampleProp (by decide) (Identifier.mk "domain" "a.com") (by decide)
  simpa [identKey] using h2

end Registry
